import Mathlib

/-!
Shallow embedding of the playlist-reconciliation core of
`src/cherrymusic/api/serializers.py`:
`PlaylistSerializer.set_playback_position`, `PlaylistSerializer.sync_tracks`,
`PlaylistSerializer.update` and `PlaylistSerializer.create`, together with the
database rows they read and write (Playlist, Track, Youtube, File, User,
PlaylistPosition).

Modelling conventions:
* The database is an explicit state `DB`; Django's `transaction.atomic()` is
  modelled by the operations returning `Except`: an `.error` result means the
  whole transaction rolled back, so the caller's pre-call state is the
  persisted state (`runUpdate` makes that explicit).
* Validated-data dicts are structures whose fields are `Option`-wrapped when
  the corresponding key can be absent (Python `dict.pop` without a default
  raises `KeyError` exactly when the key is absent); a nullable value inside a
  present key is a second `Option` layer.
* Python floats (`playback_position`) are modelled as `ℚ`; the stored
  `active_track_idx` column is also `ℚ` because `update` passes a float into it
  (the argument swap at serializers.py:261).
* `Youtube.objects.get_or_create(video_id=..., defaults=...)` and
  `PlaylistPosition.objects.update_or_create` are Django ORM calls; they are
  modelled with their documented lookup-or-insert / update-or-insert semantics
  over the explicit row lists (the storage models live outside this file's
  source, in `storage.models` / `playlist.models`).
-/

/-- Errors surfaced by the embedded operations. `keyError s` models Python's
`KeyError` raised by `dict.pop(s)` without a default; `notFound s` models
Django's `<Model>.DoesNotExist` raised by `<Model>.objects.get`; `typeError`
models subscripting `None` (`validated_data.pop('owner')['id']`). -/
inductive Err where
  | keyError : String → Err
  | notFound : String → Err
  | typeError : Err
deriving DecidableEq

/-- The validated nested `youtube` dict of a track descriptor
(`YoutubeSerializer` fields minus the read-only `id`). `youtube_id = none`
means the key is absent, so `youtube_data.pop('youtube_id')` raises. -/
structure YoutubeDesc where
  youtube_id : Option String
  title : String
  views : Int
  duration : ℚ
deriving DecidableEq

/-- The validated nested `file` dict of a track descriptor: `FileSerializer`
declares `id` explicitly, so it is always present. -/
structure FileDesc where
  id : Int
deriving DecidableEq

/-- A validated track descriptor dict as consumed by `sync_tracks`. An outer
`none` means the key is absent from the dict (relevant for the `pop` calls);
for `youtube`/`file` the inner `Option` is the nullable value. -/
structure TrackData where
  id : Option Int
  playlist : Option Int
  order : Option Int
  type : String
  youtube : Option (Option YoutubeDesc)
  file : Option (Option FileDesc)
deriving DecidableEq

/-- The validated nested `owner` dict (`UserSerializer`). -/
structure OwnerDesc where
  id : Int
deriving DecidableEq

/-- Validated data for a whole playlist as consumed by
`PlaylistSerializer.update`/`create`; `owner` is nullable
(`UserSerializer(allow_null=True)`). The playback fields keep their
source-keyed names `get_active_track_idx` / `get_playback_position`. -/
structure PlaylistData where
  id : Int
  name : String
  owner : Option OwnerDesc
  public : Bool
  get_active_track_idx : Int
  get_playback_position : ℚ
  tracks : List TrackData
deriving DecidableEq

/-- A persisted `Playlist` row (fields touched by this core). -/
structure PlaylistRow where
  id : Int
  name : String
  owner : Option Int
  public : Bool
deriving DecidableEq

/-- A persisted `Track` row. `file`/`youtube` are nullable foreign keys. -/
structure TrackRow where
  id : Int
  playlist : Int
  order : Nat
  type : String
  file : Option Int
  youtube : Option Int
deriving DecidableEq

/-- A persisted `Youtube` row; `video_id` is the lookup key used by
`sync_tracks`'s `get_or_create`. -/
structure YoutubeRow where
  id : Int
  video_id : String
  title : String
  views : Int
  duration : ℚ
deriving DecidableEq

/-- A persisted `PlaylistPosition` row, keyed by (playlist, user). Both value
columns are `ℚ` because the code stores a float into `active_track_idx` on the
`update` path (see the argument swap at serializers.py:261). -/
structure PositionRow where
  playlist : Int
  user : Int
  active_track_idx : ℚ
  playback_position : ℚ
deriving DecidableEq

/-- The database state: rows of the tables this core touches, plus the
auto-increment counters for the rows it creates. `files` and `users` are
read-only here, so only their ids matter. -/
structure DB where
  users : List Int
  files : List Int
  playlists : List PlaylistRow
  tracks : List TrackRow
  youtubes : List YoutubeRow
  positions : List PositionRow
  nextTrackId : Int
  nextYoutubeId : Int
  nextPlaylistId : Int
deriving DecidableEq

/-- `File.objects.get(id=fid)`: read-only lookup, `File.DoesNotExist` when the
id is absent. -/
def fileGet (db : DB) (fid : Int) : Except Err Int :=
  if fid ∈ db.files then .ok fid else .error (.notFound "File")

/-- `User.objects.get(id=uid)`. -/
def userGet (db : DB) (uid : Int) : Except Err Int :=
  if uid ∈ db.users then .ok uid else .error (.notFound "User")

/-- `Playlist.objects.get(id=pid)`. -/
def playlistGet (db : DB) (pid : Int) : Except Err PlaylistRow :=
  match db.playlists.find? (fun pl => pl.id == pid) with
  | some pl => .ok pl
  | none => .error (.notFound "Playlist")

/-- `Youtube.objects.get_or_create(video_id=vid, defaults=youtube_data)`:
look up by the external identifier; if absent, insert a new row populated from
the defaults; if present, return the existing row unchanged. -/
def youtubeGetOrCreate (db : DB) (vid : String) (defaults : YoutubeDesc) :
    YoutubeRow × DB :=
  match db.youtubes.find? (fun y => y.video_id == vid) with
  | some y => (y, db)
  | none =>
    let y : YoutubeRow :=
      { id := db.nextYoutubeId, video_id := vid, title := defaults.title,
        views := defaults.views, duration := defaults.duration }
    (y, { db with youtubes := db.youtubes ++ [y],
                  nextYoutubeId := db.nextYoutubeId + 1 })

/-- The row `youtubeGetOrCreate` inserts when the identifier is absent
(spelled out for reasoning). -/
def mkYoutubeRow (db : DB) (vid : String) (yd : YoutubeDesc) : YoutubeRow :=
  { id := db.nextYoutubeId, video_id := vid, title := yd.title,
    views := yd.views, duration := yd.duration }

/-- The state after `youtubeGetOrCreate` inserts a fresh row. -/
def ytCreated (db : DB) (vid : String) (yd : YoutubeDesc) : DB :=
  { db with youtubes := db.youtubes ++ [mkYoutubeRow db vid yd],
            nextYoutubeId := db.nextYoutubeId + 1 }

/-- `PlaylistPosition.objects.update_or_create(user_id=uid, playlist=pid,
defaults=...)`: update the (first) matching row in place, else insert one.
(Django raises on multiple matches; that situation is ruled out by the
at-most-one-row invariant the code maintains.) -/
def upsertPosition (rows : List PositionRow) (pid uid : Int) (a p : ℚ) :
    List PositionRow :=
  match rows with
  | [] => [{ playlist := pid, user := uid, active_track_idx := a,
             playback_position := p }]
  | r :: rs =>
    if r.user == uid && r.playlist == pid then
      { r with active_track_idx := a, playback_position := p } :: rs
    else
      r :: upsertPosition rs pid uid a p

/-- `PlaylistSerializer.set_playback_position(playlist, active_track_idx,
playback_position, user)` (serializers.py:204-213). -/
def set_playback_position (db : DB) (playlist : Int)
    (active_track_idx playback_position : ℚ) (user : Int) : DB :=
  let rows := upsertPosition db.positions playlist user active_track_idx
    playback_position
  { db with positions := rows }

/-- The `youtube` branch of the `sync_tracks` loop body
(serializers.py:227-234): pop `youtube_id` out of the nested dict, then
`get_or_create` keyed by it. Returns the resolved nullable foreign key and the
updated state. -/
def resolveYoutube (db : DB) (youtube_data : Option YoutubeDesc) :
    Except Err (Option Int × DB) :=
  match youtube_data with
  | none => .ok (none, db)
  | some yd =>
    match yd.youtube_id with
    | none => .error (.keyError "youtube_id")
    | some vid =>
      let r := youtubeGetOrCreate db vid { yd with youtube_id := none }
      .ok (some r.1.id, r.2)

/-- The `file` branch of the `sync_tracks` loop body (serializers.py:235-238):
`File.objects.get(id=file_data['id'])` when a file dict is present. -/
def resolveFile (db : DB) (file_data : Option FileDesc) :
    Except Err (Option Int) :=
  match file_data with
  | none => .ok none
  | some fd =>
    match fileGet db fd.id with
    | .error e => .error e
    | .ok fid => .ok (some fid)

/-- One iteration of `for idx, track_data in enumerate(tracks_data)` in
`sync_tracks` (serializers.py:221-245). The returned `TrackData` is the
descriptor dict after its in-place mutation: `order` overwritten with `idx`,
and `id`, `playlist`, `youtube`, `file` popped out. Failure points, in source
order: `pop('youtube')` on an absent key, `pop('youtube_id')` on an absent
key, `pop('file')` on an absent key, and the `File` lookup. -/
def syncOne (db : DB) (playlist : Int) (idx : Nat) (d : TrackData) :
    Except Err (DB × TrackData) :=
  match d.youtube with
  | none => .error (.keyError "youtube")
  | some youtube_data =>
    match resolveYoutube db youtube_data with
    | .error e => .error e
    | .ok (youtube, db1) =>
      match d.file with
      | none => .error (.keyError "file")
      | some file_data =>
        match resolveFile db1 file_data with
        | .error e => .error e
        | .ok file =>
          let t : TrackRow :=
            { id := db1.nextTrackId, playlist := playlist, order := idx,
              type := d.type, file := file, youtube := youtube }
          .ok ({ db1 with tracks := db1.tracks ++ [t],
                          nextTrackId := db1.nextTrackId + 1 },
               { d with order := some (idx : Int), id := none,
                        playlist := none, youtube := none, file := none })

/-- The `enumerate` loop of `sync_tracks`, threading the state and collecting
the mutated descriptors. -/
def syncLoop (db : DB) (playlist : Int) (idx : Nat) :
    List TrackData → Except Err (DB × List TrackData)
  | [] => .ok (db, [])
  | d :: ds =>
    match syncOne db playlist idx d with
    | .error e => .error e
    | .ok (db', d') =>
      match syncLoop db' playlist (idx + 1) ds with
      | .error e => .error e
      | .ok (db'', ds') => .ok (db'', d' :: ds')

/-- `PlaylistSerializer.sync_tracks(playlist, tracks_data)`
(serializers.py:215-245): inside one transaction, delete every `Track` of the
playlist, then recreate them from the descriptors in input order. An `.error`
result is a rolled-back transaction: callers keep their pre-call state. -/
def sync_tracks (db : DB) (playlist : Int) (tracks_data : List TrackData) :
    Except Err (DB × List TrackData) :=
  let db0 : DB :=
    { db with tracks := db.tracks.filter (fun t => !(t.playlist == playlist)) }
  syncLoop db0 playlist 0 tracks_data

/-- `Playlist.objects.filter(id=pid).update(name=..., public=...)`
(serializers.py:254-257): bulk update touching only `name` and `public`. -/
def playlistFilterUpdate (db : DB) (pid : Int) (name : String) (pub : Bool) :
    DB :=
  { db with playlists := db.playlists.map (fun pl =>
      if pl.id == pid then { pl with name := name, public := pub } else pl) }

/-- `PlaylistSerializer.update(instance, validated_data)`
(serializers.py:247-263). Note the call at line 261 passes
`playback_position` and `active_track_idx` positionally in that order, i.e.
swapped relative to `set_playback_position`'s parameter order. -/
def update (db : DB) (v : PlaylistData) : Except Err (DB × Int) :=
  match v.owner with
  | none => .error Err.typeError
  | some o =>
    match userGet db o.id with
    | .error e => .error e
    | .ok user =>
      let db1 := playlistFilterUpdate db v.id v.name v.public
      match playlistGet db1 v.id with
      | .error e => .error e
      | .ok _playlist =>
        let db2 := set_playback_position db1 v.id v.get_playback_position
          (v.get_active_track_idx : ℚ) user
        match sync_tracks db2 v.id v.tracks with
        | .error e => .error e
        | .ok (db3, _mutated) => .ok (db3, v.id)

/-- `PlaylistSerializer.create(validated_data)` (serializers.py:265-277); the
call at line 275 passes `active_track_idx, playback_position` in the helper's
declared (non-swapped) order. -/
def create (db : DB) (v : PlaylistData) : Except Err (DB × Int) :=
  match v.owner with
  | none => .error Err.typeError
  | some o =>
    match userGet db o.id with
    | .error e => .error e
    | .ok user =>
      let pid := db.nextPlaylistId
      let db1 : DB :=
        { db with
          playlists := db.playlists ++
            [{ id := pid, name := v.name, owner := some user,
               public := v.public }],
          nextPlaylistId := db.nextPlaylistId + 1 }
      let db2 := set_playback_position db1 pid (v.get_active_track_idx : ℚ)
        v.get_playback_position user
      match sync_tracks db2 pid v.tracks with
      | .error e => .error e
      | .ok (db3, _mutated) => .ok (db3, pid)

/-- The persisted state after a call to `update`: on success the new state, on
failure the pre-call state (full transaction rollback). -/
def runUpdate (db : DB) (v : PlaylistData) : DB :=
  match update db v with
  | .ok r => r.1
  | .error _ => db

/-- The `Track` rows of one playlist, in row order. -/
def tracksOf (db : DB) (pid : Int) : List TrackRow :=
  db.tracks.filter (fun t => t.playlist == pid)

/-- The `PlaylistPosition` rows for one (playlist, user) pair. -/
def positionsOf (db : DB) (pid uid : Int) : List PositionRow :=
  db.positions.filter (fun r => r.playlist == pid && r.user == uid)

/-- The `Youtube` rows carrying a given external identifier. -/
def ytOf (db : DB) (vid : String) : List YoutubeRow :=
  db.youtubes.filter (fun y => y.video_id == vid)

/-- The observable content of a track row, with the database-assigned
identities (`id`, and the playlist fk) erased. -/
def trackProj (t : TrackRow) : Nat × String × Option Int × Option Int :=
  (t.order, t.type, t.file, t.youtube)

/-- The first youtube descriptor among a descriptor list that carries the
given external identifier. -/
def firstYoutubeDesc (l : List TrackData) (vid : String) :
    Option YoutubeDesc :=
  match l with
  | [] => none
  | d :: ds =>
    match d.youtube with
    | some (some yd) =>
      if yd.youtube_id = some vid then some yd else firstYoutubeDesc ds vid
    | _ => firstYoutubeDesc ds vid

/-- The in-place mutation `sync_tracks` applies to one descriptor dict:
`order` overwritten with the enumerate index, `id`, `playlist`, `youtube` and
`file` popped out. -/
def popTrackData (idx : Nat) (d : TrackData) : TrackData :=
  { d with order := some (idx : Int), id := none, playlist := none,
           youtube := none, file := none }

/-- The mutation `sync_tracks` applies to a whole descriptor list, starting at
enumerate index `idx`. -/
def popAll (idx : Nat) : List TrackData → List TrackData
  | [] => []
  | d :: ds => popTrackData idx d :: popAll (idx + 1) ds

/-- At most one `PlaylistPosition` row per (playlist, user) pair. -/
def posUnique (db : DB) : Prop :=
  ∀ pid uid : Int, (positionsOf db pid uid).length ≤ 1

/-- One recorded `set_playback_position` call, for stating properties about
arbitrary call sequences. -/
structure PosCall where
  playlist : Int
  active_track_idx : ℚ
  playback_position : ℚ
  user : Int

/-- Apply a sequence of `set_playback_position` calls in order. -/
def applyPosCalls (db : DB) : List PosCall → DB
  | [] => db
  | c :: cs =>
    applyPosCalls
      (set_playback_position db c.playlist c.active_track_idx
        c.playback_position c.user) cs

/-! ### Concrete fixtures (used by the witness theorems) -/

/-- A small database: user 7, file 3, one playlist with id 1 owned by 7. -/
def dbW : DB :=
  { users := [7], files := [3],
    playlists := [{ id := 1, name := "a", owner := some 7, public := false }],
    tracks := [], youtubes := [], positions := [],
    nextTrackId := 0, nextYoutubeId := 0, nextPlaylistId := 2 }

/-- A file-backed descriptor referencing file 3 (with a stale `order` of 5). -/
def dFileW : TrackData :=
  ⟨none, none, some 5, "file", some none, some (some ⟨3⟩)⟩

/-- An external descriptor with identifier "abc" and the given title. -/
def dYtW (t : String) : TrackData :=
  ⟨none, none, some 9, "youtube", some (some ⟨some "abc", t, 10, 100⟩),
   some none⟩

/-- A descriptor carrying both a file reference and an external source. -/
def dBothW : TrackData :=
  ⟨none, none, some 0, "file", some (some ⟨some "xyz", "T", 1, 2⟩),
   some (some ⟨3⟩)⟩

/-- A descriptor carrying neither reference (both keys present but null). -/
def dNeitherW : TrackData :=
  ⟨none, none, some 0, "file", some none, some none⟩

/-- A descriptor referencing a file id (999) that does not exist. -/
def dDangleW : TrackData :=
  ⟨none, none, some 0, "file", some none, some (some ⟨999⟩)⟩

/-- A playlist descriptor against playlist 1, owner 7,
active_track_idx = 1, playback_position = 42.5. -/
def vW (tracks : List TrackData) : PlaylistData :=
  { id := 1, name := "b", owner := some ⟨7⟩, public := true,
    get_active_track_idx := 1, get_playback_position := mkRat 85 2,
    tracks := tracks }

/-! ### List helper lemmas -/

lemma find?_append_some {α : Type} {p : α → Bool} {l l2 : List α} {y : α}
    (h : l.find? p = some y) : (l ++ l2).find? p = some y := by
  induction l with
  | nil => simp [List.find?] at h
  | cons a l ih =>
    by_cases hp : p a
    · rw [List.find?_cons_of_pos _ hp] at h
      rw [List.cons_append, List.find?_cons_of_pos _ hp]
      exact h
    · rw [List.find?_cons_of_neg _ hp] at h
      rw [List.cons_append, List.find?_cons_of_neg _ hp]
      exact ih h

lemma find?_prefix_some {α : Type} {p : α → Bool} {l l' : List α} {y : α}
    (hpre : l <+: l') (h : l.find? p = some y) : l'.find? p = some y := by
  obtain ⟨t, rfl⟩ := hpre
  exact find?_append_some h

lemma find?_append_singleton {α : Type} {p : α → Bool} {l : List α} {y : α}
    (h : l.find? p = none) (hy : p y = true) : (l ++ [y]).find? p = some y := by
  induction l with
  | nil => simpa [List.find?] using List.find?_cons_of_pos [] hy
  | cons a l ih =>
    by_cases hp : p a
    · rw [List.find?_cons_of_pos _ hp] at h
      exact absurd h (by simp)
    · rw [List.find?_cons_of_neg _ hp] at h
      rw [List.cons_append, List.find?_cons_of_neg _ hp]
      exact ih h

/-! ### Youtube resolution lemmas -/

lemma ytOf_eq_nil_iff (db : DB) (vid : String) :
    ytOf db vid = [] ↔
      db.youtubes.find? (fun y => y.video_id == vid) = none := by
  simp [ytOf, List.filter_eq_nil_iff, List.find?_eq_none]

lemma youtubeGetOrCreate_spec (db : DB) (vid : String) (defaults : YoutubeDesc) :
    (∃ y, db.youtubes.find? (fun z => z.video_id == vid) = some y ∧
      youtubeGetOrCreate db vid defaults = (y, db)) ∨
    (db.youtubes.find? (fun z => z.video_id == vid) = none ∧
      youtubeGetOrCreate db vid defaults =
        (mkYoutubeRow db vid defaults, ytCreated db vid defaults)) := by
  unfold youtubeGetOrCreate
  cases h : db.youtubes.find? (fun z => z.video_id == vid) with
  | none => right; exact ⟨rfl, rfl⟩
  | some y => left; exact ⟨y, rfl, rfl⟩

lemma resolveYoutube_ok_elim {db : DB} {ydata : Option YoutubeDesc}
    {r : Option Int} {db1 : DB}
    (h : resolveYoutube db ydata = .ok (r, db1)) :
    (ydata = none ∧ r = none ∧ db1 = db) ∨
    (∃ yd vid, ydata = some yd ∧ yd.youtube_id = some vid ∧
      ((∃ y, db.youtubes.find? (fun z => z.video_id == vid) = some y ∧
          r = some y.id ∧ db1 = db) ∨
       (db.youtubes.find? (fun z => z.video_id == vid) = none ∧
          r = some db.nextYoutubeId ∧
          db1 = ytCreated db vid { yd with youtube_id := none }))) := by
  cases ydata with
  | none =>
    left
    unfold resolveYoutube at h
    simp only [Except.ok.injEq, Prod.mk.injEq] at h
    exact ⟨rfl, h.1.symm, h.2.symm⟩
  | some yd =>
    right
    unfold resolveYoutube at h
    cases hid : yd.youtube_id with
    | none => simp only [hid] at h; exact absurd h (by simp)
    | some vid =>
      simp only [hid] at h
      refine ⟨yd, vid, rfl, hid, ?_⟩
      rcases youtubeGetOrCreate_spec db vid { yd with youtube_id := none }
        with ⟨y, hfind, heq⟩ | ⟨hfind, heq⟩
      · left
        rw [heq] at h
        simp only [Except.ok.injEq, Prod.mk.injEq] at h
        exact ⟨y, hfind, h.1.symm, h.2.symm⟩
      · right
        rw [heq] at h
        simp only [Except.ok.injEq, Prod.mk.injEq] at h
        refine ⟨hfind, h.1.symm, h.2.symm⟩

lemma resolveYoutube_frame {db : DB} {ydata : Option YoutubeDesc}
    {r : Option Int} {db1 : DB}
    (h : resolveYoutube db ydata = .ok (r, db1)) :
    db1.users = db.users ∧ db1.files = db.files ∧
    db1.playlists = db.playlists ∧ db1.tracks = db.tracks ∧
    db1.positions = db.positions ∧ db1.nextTrackId = db.nextTrackId ∧
    db1.nextPlaylistId = db.nextPlaylistId ∧ db.youtubes <+: db1.youtubes := by
  rcases resolveYoutube_ok_elim h with ⟨_, _, rfl⟩ | ⟨yd, vid, _, _, hcase⟩
  · exact ⟨rfl, rfl, rfl, rfl, rfl, rfl, rfl, List.prefix_rfl⟩
  · rcases hcase with ⟨y, _, _, rfl⟩ | ⟨_, _, rfl⟩
    · exact ⟨rfl, rfl, rfl, rfl, rfl, rfl, rfl, List.prefix_rfl⟩
    · exact ⟨rfl, rfl, rfl, rfl, rfl, rfl, rfl, List.prefix_append _ _⟩

lemma syncOne_ok_elim {db : DB} {pl : Int} {idx : Nat} {d : TrackData}
    {db' : DB} {d' : TrackData}
    (h : syncOne db pl idx d = .ok (db', d')) :
    ∃ ydata fdata r db1 fref,
      d.youtube = some ydata ∧ d.file = some fdata ∧
      resolveYoutube db ydata = .ok (r, db1) ∧
      resolveFile db1 fdata = .ok fref ∧
      db' = { db1 with
        tracks := db1.tracks ++
          [{ id := db1.nextTrackId, playlist := pl, order := idx,
             type := d.type, file := fref, youtube := r }],
        nextTrackId := db1.nextTrackId + 1 } ∧
      d' = popTrackData idx d := by
  unfold syncOne at h
  cases hyt : d.youtube with
  | none => simp only [hyt] at h; exact absurd h (by simp)
  | some ydata =>
    simp only [hyt] at h
    cases hry : resolveYoutube db ydata with
    | error e => simp only [hry] at h; exact absurd h (by simp)
    | ok rv =>
      obtain ⟨r, db1⟩ := rv
      simp only [hry] at h
      cases hf : d.file with
      | none => simp only [hf] at h; exact absurd h (by simp)
      | some fdata =>
        simp only [hf] at h
        cases hrf : resolveFile db1 fdata with
        | error e => simp only [hrf] at h; exact absurd h (by simp)
        | ok fref =>
          simp only [hrf, Except.ok.injEq, Prod.mk.injEq] at h
          refine ⟨ydata, fdata, r, db1, fref, rfl, rfl, hry, hrf,
            h.1.symm, ?_⟩
          rw [← h.2]; rfl

lemma syncOne_ok_frames {db : DB} {pl : Int} {idx : Nat} {d : TrackData}
    {db' : DB} {d' : TrackData}
    (h : syncOne db pl idx d = .ok (db', d')) :
    db'.users = db.users ∧ db'.files = db.files ∧
    db'.playlists = db.playlists ∧ db'.positions = db.positions ∧
    db'.nextPlaylistId = db.nextPlaylistId ∧
    db.youtubes <+: db'.youtubes ∧ db'.nextTrackId = db.nextTrackId + 1 ∧
    d' = popTrackData idx d ∧
    ∃ t, db'.tracks = db.tracks ++ [t] ∧ t.playlist = pl ∧ t.order = idx ∧
      t.type = d.type ∧ t.id = db.nextTrackId := by
  obtain ⟨ydata, fdata, r, db1, fref, hyt, hf, hry, hrf, hdb, hd⟩ :=
    syncOne_ok_elim h
  obtain ⟨hu, hfl, hpl, htr, hpos, hnt, hnp, hpre⟩ := resolveYoutube_frame hry
  subst hdb
  refine ⟨hu, hfl, hpl, hpos, hnp, hpre, ?_, hd, ?_⟩
  · show db1.nextTrackId + 1 = db.nextTrackId + 1
    rw [hnt]
  · refine ⟨⟨db1.nextTrackId, pl, idx, d.type, fref, r⟩, ?_, rfl, rfl, rfl,
      hnt⟩
    show db1.tracks ++ _ = db.tracks ++ _
    rw [htr]

lemma popAll_length : ∀ (l : List TrackData) (idx : Nat),
    (popAll idx l).length = l.length := by
  intro l
  induction l with
  | nil => intro idx; rfl
  | cons d ds ih => intro idx; simp [popAll, ih]

lemma popAll_get : ∀ (l : List TrackData) (idx i : Nat) (hi : i < l.length)
    (hi' : i < (popAll idx l).length),
    (popAll idx l).get ⟨i, hi'⟩ = popTrackData (idx + i) (l.get ⟨i, hi⟩) := by
  intro l
  induction l with
  | nil => intro idx i hi; exact absurd hi (by simp)
  | cons d ds ih =>
    intro idx i hi hi'
    cases i with
    | zero => simp [popAll]
    | succ j =>
      have hj : j < ds.length := by simpa using hi
      have hj' : j < (popAll (idx + 1) ds).length := by
        rw [popAll_length]; exact hj
      have := ih (idx + 1) j hj hj'
      simp only [popAll, List.get_cons_succ]
      rw [this]
      congr 1
      omega

/-! ### `syncLoop` and `sync_tracks` characterization -/

lemma syncLoop_ok_elim : ∀ (l : List TrackData) (db : DB) (idx : Nat)
    {pl : Int} {db' : DB} {l' : List TrackData},
    syncLoop db pl idx l = .ok (db', l') →
    ∃ ts, db'.tracks = db.tracks ++ ts ∧
      l' = popAll idx l ∧
      ts.length = l.length ∧
      (∀ t ∈ ts, t.playlist = pl) ∧
      ts.map (fun t => t.order) = List.range' idx l.length ∧
      ts.map (fun t => t.type) = l.map (fun d => d.type) ∧
      (∀ t ∈ ts, db.nextTrackId ≤ t.id ∧ t.id < db'.nextTrackId) ∧
      db.nextTrackId ≤ db'.nextTrackId ∧
      db'.users = db.users ∧ db'.files = db.files ∧
      db'.playlists = db.playlists ∧ db'.positions = db.positions ∧
      db'.nextPlaylistId = db.nextPlaylistId ∧
      db.youtubes <+: db'.youtubes := by
  intro l
  induction l with
  | nil =>
    intro db idx pl db' l' h
    unfold syncLoop at h
    simp only [Except.ok.injEq, Prod.mk.injEq] at h
    obtain ⟨h1, h2⟩ := h
    subst h1; subst h2
    exact ⟨[], by simp, rfl, rfl, by simp, by simp [List.range'],
      by simp, by simp, le_refl _, rfl, rfl, rfl, rfl, rfl,
      List.prefix_rfl⟩
  | cons d ds ih =>
    intro db idx pl db' l' h
    unfold syncLoop at h
    cases h1 : syncOne db pl idx d with
    | error e => simp only [h1] at h; exact absurd h (by simp)
    | ok r1 =>
      obtain ⟨dbm, dm⟩ := r1
      simp only [h1] at h
      cases h2 : syncLoop dbm pl (idx + 1) ds with
      | error e => simp only [h2] at h; exact absurd h (by simp)
      | ok r2 =>
        obtain ⟨db2, ds2⟩ := r2
        simp only [h2, Except.ok.injEq, Prod.mk.injEq] at h
        obtain ⟨hdb, hl⟩ := h
        subst hdb; subst hl
        obtain ⟨hu1, hf1, hp1, hq1, hn1, hpre1, hnt1, hdm, t, htr1, htpl,
          htord, htty, htid⟩ := syncOne_ok_frames h1
        obtain ⟨ts2, htr2, hpop2, hlen2, hpl2, hord2, hty2, hid2, hle2,
          hu2, hf2, hp2, hq2, hn2, hpre2⟩ := ih dbm (idx + 1) h2
        refine ⟨t :: ts2, ?_, ?_, ?_, ?_, ?_, ?_, ?_, ?_, ?_, ?_, ?_, ?_,
          ?_, ?_⟩
        · rw [htr2, htr1, List.append_assoc]; rfl
        · simp [popAll, hpop2, hdm]
        · simp [hlen2]
        · intro x hx
          rcases List.mem_cons.mp hx with rfl | hx
          · exact htpl
          · exact hpl2 x hx
        · simp only [List.map_cons, hord2, htord, List.length_cons,
            List.range'_succ]
        · simp only [List.map_cons, hty2, htty]
        · intro x hx
          rcases List.mem_cons.mp hx with rfl | hx
          · constructor
            · rw [htid]
            · have : dbm.nextTrackId ≤ db2.nextTrackId := hle2
              omega
          · have := hid2 x hx
            omega
        · omega
        · rw [hu2, hu1]
        · rw [hf2, hf1]
        · rw [hp2, hp1]
        · rw [hq2, hq1]
        · rw [hn2, hn1]
        · exact hpre1.trans hpre2

/-! ### Field projections of the auxiliary writes -/

@[simp] lemma spp_users (db : DB) (pl : Int) (a p : ℚ) (u : Int) :
    (set_playback_position db pl a p u).users = db.users := rfl

@[simp] lemma spp_files (db : DB) (pl : Int) (a p : ℚ) (u : Int) :
    (set_playback_position db pl a p u).files = db.files := rfl

@[simp] lemma spp_playlists (db : DB) (pl : Int) (a p : ℚ) (u : Int) :
    (set_playback_position db pl a p u).playlists = db.playlists := rfl

@[simp] lemma spp_tracks (db : DB) (pl : Int) (a p : ℚ) (u : Int) :
    (set_playback_position db pl a p u).tracks = db.tracks := rfl

@[simp] lemma spp_youtubes (db : DB) (pl : Int) (a p : ℚ) (u : Int) :
    (set_playback_position db pl a p u).youtubes = db.youtubes := rfl

@[simp] lemma spp_nextTrackId (db : DB) (pl : Int) (a p : ℚ) (u : Int) :
    (set_playback_position db pl a p u).nextTrackId = db.nextTrackId := rfl

@[simp] lemma spp_positions (db : DB) (pl : Int) (a p : ℚ) (u : Int) :
    (set_playback_position db pl a p u).positions =
      upsertPosition db.positions pl u a p := rfl

@[simp] lemma pfu_users (db : DB) (pid : Int) (n : String) (b : Bool) :
    (playlistFilterUpdate db pid n b).users = db.users := rfl

@[simp] lemma pfu_files (db : DB) (pid : Int) (n : String) (b : Bool) :
    (playlistFilterUpdate db pid n b).files = db.files := rfl

@[simp] lemma pfu_tracks (db : DB) (pid : Int) (n : String) (b : Bool) :
    (playlistFilterUpdate db pid n b).tracks = db.tracks := rfl

@[simp] lemma pfu_youtubes (db : DB) (pid : Int) (n : String) (b : Bool) :
    (playlistFilterUpdate db pid n b).youtubes = db.youtubes := rfl

@[simp] lemma pfu_positions (db : DB) (pid : Int) (n : String) (b : Bool) :
    (playlistFilterUpdate db pid n b).positions = db.positions := rfl

@[simp] lemma pfu_nextTrackId (db : DB) (pid : Int) (n : String) (b : Bool) :
    (playlistFilterUpdate db pid n b).nextTrackId = db.nextTrackId := rfl

@[simp] lemma pfu_playlists (db : DB) (pid : Int) (n : String) (b : Bool) :
    (playlistFilterUpdate db pid n b).playlists = db.playlists.map
      (fun pl => if pl.id == pid then { pl with name := n, public := b }
        else pl) := rfl

lemma sync_tracks_ok_elim {db : DB} {pl : Int} {l : List TrackData}
    {db' : DB} {l' : List TrackData}
    (h : sync_tracks db pl l = .ok (db', l')) :
    ∃ ts, db'.tracks = db.tracks.filter (fun t => !(t.playlist == pl)) ++ ts ∧
      tracksOf db' pl = ts ∧
      l' = popAll 0 l ∧ ts.length = l.length ∧
      (∀ t ∈ ts, t.playlist = pl) ∧
      ts.map (fun t => t.order) = List.range l.length ∧
      ts.map (fun t => t.type) = l.map (fun d => d.type) ∧
      (∀ t ∈ ts, db.nextTrackId ≤ t.id ∧ t.id < db'.nextTrackId) ∧
      db.nextTrackId ≤ db'.nextTrackId ∧
      db'.users = db.users ∧ db'.files = db.files ∧
      db'.playlists = db.playlists ∧ db'.positions = db.positions ∧
      db'.nextPlaylistId = db.nextPlaylistId ∧
      db.youtubes <+: db'.youtubes := by
  unfold sync_tracks at h
  obtain ⟨ts, htr, hpop, hlen, hpl, hord, hty, hid, hle, hu, hf, hp, hq,
    hn, hpre⟩ := syncLoop_ok_elim l _ 0 h
  refine ⟨ts, htr, ?_, hpop, hlen, hpl,
    by rw [hord, List.range_eq_range'], hty, hid, hle, hu, hf, hp, hq,
    hn, hpre⟩
  unfold tracksOf
  rw [htr]
  show (List.filter _ (List.filter _ db.tracks ++ ts)) = ts
  rw [List.filter_append, List.filter_filter]
  have h1 : List.filter
      (fun a => (a.playlist == pl) && !(a.playlist == pl)) db.tracks = [] := by
    apply List.filter_eq_nil_iff.mpr
    intro a _
    cases hb : a.playlist == pl <;> simp [hb]
  have h2 : List.filter (fun t => t.playlist == pl) ts = ts := by
    apply List.filter_eq_self.mpr
    intro a ha
    exact beq_iff_eq.mpr (hpl a ha)
  rw [h1, h2]
  rfl

/-! ### Youtube table evolution -/

lemma syncOne_ytOf_keep {db : DB} {pl : Int} {idx : Nat} {d : TrackData}
    {db' : DB} {d' : TrackData}
    (h : syncOne db pl idx d = .ok (db', d')) (vid : String)
    (hne : ytOf db vid ≠ []) : ytOf db' vid = ytOf db vid := by
  obtain ⟨ydata, fdata, r, db1, fref, hyt, hf, hry, hrf, hdb, hd⟩ :=
    syncOne_ok_elim h
  subst hdb
  show ytOf db1 vid = ytOf db vid
  rcases resolveYoutube_ok_elim hry with ⟨_, _, rfl⟩ |
    ⟨yd, vid0, hyd, hvid, ⟨y, _, _, rfl⟩ | ⟨hfind, _, rfl⟩⟩
  · rfl
  · rfl
  · show ytOf (ytCreated db vid0 _) vid = ytOf db vid
    unfold ytOf ytCreated
    rw [List.filter_append]
    by_cases hv : vid0 = vid
    · subst hv
      exact absurd ((ytOf_eq_nil_iff db vid0).mpr hfind) hne
    · have : List.filter (fun y => y.video_id == vid)
          [mkYoutubeRow db vid0 { yd with youtube_id := none }] = [] := by
        simp [mkYoutubeRow, hv]
      rw [this, List.append_nil]

lemma syncOne_ytOf_miss {db : DB} {pl : Int} {idx : Nat} {d : TrackData}
    {db' : DB} {d' : TrackData}
    (h : syncOne db pl idx d = .ok (db', d')) (vid : String)
    (hmiss : ∀ yd, d.youtube = some (some yd) → yd.youtube_id ≠ some vid) :
    ytOf db' vid = ytOf db vid := by
  obtain ⟨ydata, fdata, r, db1, fref, hyt, hf, hry, hrf, hdb, hd⟩ :=
    syncOne_ok_elim h
  subst hdb
  show ytOf db1 vid = ytOf db vid
  rcases resolveYoutube_ok_elim hry with ⟨_, _, rfl⟩ |
    ⟨yd, vid0, hyd, hvid, ⟨y, _, _, rfl⟩ | ⟨hfind, _, rfl⟩⟩
  · rfl
  · rfl
  · have hv : vid0 ≠ vid := by
      intro hv
      exact hmiss yd (by rw [hyt, hyd]) (by rw [hvid, hv])
    show ytOf (ytCreated db vid0 _) vid = ytOf db vid
    unfold ytOf ytCreated
    rw [List.filter_append]
    have : List.filter (fun y => y.video_id == vid)
        [mkYoutubeRow db vid0 { yd with youtube_id := none }] = [] := by
      simp [mkYoutubeRow, hv]
    rw [this, List.append_nil]

lemma syncOne_ytOf_hit {db : DB} {pl : Int} {idx : Nat} {d : TrackData}
    {db' : DB} {d' : TrackData} {yd : YoutubeDesc} {vid : String}
    (h : syncOne db pl idx d = .ok (db', d'))
    (hyd : d.youtube = some (some yd)) (hvid : yd.youtube_id = some vid)
    (hnil : ytOf db vid = []) :
    ytOf db' vid = [mkYoutubeRow db vid { yd with youtube_id := none }] := by
  obtain ⟨ydata, fdata, r, db1, fref, hyt, hf, hry, hrf, hdb, hd⟩ :=
    syncOne_ok_elim h
  subst hdb
  show ytOf db1 vid = _
  rw [hyt] at hyd
  have hyd' : ydata = some yd := by injection hyd
  subst hyd'
  rcases resolveYoutube_ok_elim hry with ⟨hcon, _, _⟩ |
    ⟨yd1, vid1, hyd1, hvid1, ⟨y, hfind, _, hdb1⟩ | ⟨hfind, _, hdb1⟩⟩
  · exact absurd hcon (by simp)
  · have hyd1' : yd1 = yd := by
      have h2 := hyd1.symm
      injection h2
    rw [hyd1'] at hvid1
    rw [hvid] at hvid1
    have hv1 : vid1 = vid := by injection hvid1.symm
    rw [hv1] at hfind
    rw [(ytOf_eq_nil_iff db vid).mp hnil] at hfind
    exact absurd hfind (by simp)

  · have hyd1' : yd1 = yd := by
      have h2 := hyd1.symm
      injection h2
    rw [hyd1'] at hvid1
    rw [hvid] at hvid1
    have hv1 : vid1 = vid := by injection hvid1.symm
    rw [hdb1, hyd1', hv1]
    show ytOf (ytCreated db vid _) vid = _
    unfold ytOf ytCreated
    rw [List.filter_append, (show List.filter _ db.youtubes = [] from hnil)]
    simp [mkYoutubeRow]

lemma syncLoop_ytOf_keep : ∀ (l : List TrackData) (db : DB) (idx : Nat)
    {pl : Int} {db' : DB} {l' : List TrackData},
    syncLoop db pl idx l = .ok (db', l') →
    ∀ vid, ytOf db vid ≠ [] → ytOf db' vid = ytOf db vid := by
  intro l
  induction l with
  | nil =>
    intro db idx pl db' l' h vid hne
    unfold syncLoop at h
    simp only [Except.ok.injEq, Prod.mk.injEq] at h
    rw [← h.1]
  | cons d ds ih =>
    intro db idx pl db' l' h vid hne
    unfold syncLoop at h
    cases h1 : syncOne db pl idx d with
    | error e => simp only [h1] at h; exact absurd h (by simp)
    | ok r1 =>
      obtain ⟨dbm, dm⟩ := r1
      simp only [h1] at h
      cases h2 : syncLoop dbm pl (idx + 1) ds with
      | error e => simp only [h2] at h; exact absurd h (by simp)
      | ok r2 =>
        obtain ⟨db2, ds2⟩ := r2
        simp only [h2, Except.ok.injEq, Prod.mk.injEq] at h
        obtain ⟨hdb, _⟩ := h
        have hk1 := syncOne_ytOf_keep h1 vid hne
        have hk2 := ih dbm (idx + 1) h2 vid (by rw [hk1]; exact hne)
        rw [← hdb, hk2, hk1]

lemma syncLoop_ytOf_first : ∀ (l : List TrackData) (db : DB) (idx : Nat)
    {pl : Int} {db' : DB} {l' : List TrackData},
    syncLoop db pl idx l = .ok (db', l') →
    ∀ vid, ytOf db vid = [] →
    (firstYoutubeDesc l vid = none → ytOf db' vid = []) ∧
    (∀ yd, firstYoutubeDesc l vid = some yd →
      ∃ y, ytOf db' vid = [y] ∧ y.video_id = vid ∧ y.title = yd.title ∧
        y.views = yd.views ∧ y.duration = yd.duration) := by
  intro l
  induction l with
  | nil =>
    intro db idx pl db' l' h vid hnil
    unfold syncLoop at h
    simp only [Except.ok.injEq, Prod.mk.injEq] at h
    constructor
    · intro _; rw [← h.1]; exact hnil
    · intro yd hyd; exact absurd hyd (by simp [firstYoutubeDesc])
  | cons d ds ih =>
    intro db idx pl db' l' h vid hnil
    unfold syncLoop at h
    cases h1 : syncOne db pl idx d with
    | error e => simp only [h1] at h; exact absurd h (by simp)
    | ok r1 =>
      obtain ⟨dbm, dm⟩ := r1
      simp only [h1] at h
      cases h2 : syncLoop dbm pl (idx + 1) ds with
      | error e => simp only [h2] at h; exact absurd h (by simp)
      | ok r2 =>
        obtain ⟨db2, ds2⟩ := r2
        simp only [h2, Except.ok.injEq, Prod.mk.injEq] at h
        obtain ⟨hdb, _⟩ := h
        cases hyt : d.youtube with
        | none =>
          obtain ⟨ydata, _, _, _, _, hyt2, _⟩ := syncOne_ok_elim h1
          rw [hyt] at hyt2; exact absurd hyt2 (by simp)
        | some ydata =>
          cases ydata with
          | none =>
            have hm : ytOf dbm vid = ytOf db vid := by
              apply syncOne_ytOf_miss h1 vid
              intro yd hy
              rw [hyt] at hy
              simp at hy
            have hih := ih dbm (idx + 1) h2 vid (by rw [hm]; exact hnil)
            have hfd : firstYoutubeDesc (d :: ds) vid =
                firstYoutubeDesc ds vid := by
              simp only [firstYoutubeDesc, hyt]
            rw [hfd, ← hdb]
            exact hih
          | some yd =>
            by_cases hvid : yd.youtube_id = some vid
            · have hcreate := syncOne_ytOf_hit h1 hyt hvid hnil
              have hkeep := syncLoop_ytOf_keep ds dbm (idx + 1) h2 vid
                (by rw [hcreate]; simp)
              have hfd : firstYoutubeDesc (d :: ds) vid = some yd := by
                simp only [firstYoutubeDesc, hyt]
                simp [hvid]
              rw [hfd, ← hdb]
              constructor
              · intro hcon; exact absurd hcon (by simp)
              · intro yd' hyd'
                have hyy : yd = yd' := by injection hyd'
                refine ⟨mkYoutubeRow db vid { yd with youtube_id := none },
                  ?_, rfl, ?_, ?_, ?_⟩
                · rw [hkeep, hcreate]
                · rw [← hyy]; rfl
                · rw [← hyy]; rfl
                · rw [← hyy]; rfl
            · have hm : ytOf dbm vid = ytOf db vid := by
                apply syncOne_ytOf_miss h1 vid
                intro yd' hy
                rw [hyt] at hy
                have : yd = yd' := by
                  have h3 : some (some yd) = some (some yd') := hy
                  simpa using h3
                rw [← this]
                exact hvid
              have hih := ih dbm (idx + 1) h2 vid (by rw [hm]; exact hnil)
              have hfd : firstYoutubeDesc (d :: ds) vid =
                  firstYoutubeDesc ds vid := by
                simp only [firstYoutubeDesc, hyt]
                simp [hvid]
              rw [hfd, ← hdb]
              exact hih

lemma sync_tracks_ytOf_keep {db : DB} {pl : Int} {l : List TrackData}
    {db' : DB} {l' : List TrackData}
    (h : sync_tracks db pl l = .ok (db', l')) (vid : String)
    (hne : ytOf db vid ≠ []) : ytOf db' vid = ytOf db vid := by
  unfold sync_tracks at h
  exact syncLoop_ytOf_keep l _ 0 h vid hne

lemma sync_tracks_ytOf_first {db : DB} {pl : Int} {l : List TrackData}
    {db' : DB} {l' : List TrackData}
    (h : sync_tracks db pl l = .ok (db', l')) (vid : String)
    (hnil : ytOf db vid = []) :
    (firstYoutubeDesc l vid = none → ytOf db' vid = []) ∧
    (∀ yd, firstYoutubeDesc l vid = some yd →
      ∃ y, ytOf db' vid = [y] ∧ y.video_id = vid ∧ y.title = yd.title ∧
        y.views = yd.views ∧ y.duration = yd.duration) := by
  unfold sync_tracks at h
  exact syncLoop_ytOf_first l _ 0 h vid hnil

/-! ### `update` characterization and failure paths -/

lemma userGet_ok {db : DB} {uid u : Int} (h : userGet db uid = .ok u) :
    u = uid ∧ uid ∈ db.users := by
  unfold userGet at h
  by_cases hm : uid ∈ db.users
  · rw [if_pos hm] at h
    have : uid = u := by injection h
    exact ⟨this.symm, hm⟩
  · rw [if_neg hm] at h
    exact absurd h (by simp)

lemma playlistGet_ok_of_mem {db : DB} {pid : Int}
    (h : ∃ pl ∈ db.playlists, pl.id = pid) :
    ∃ pl, playlistGet db pid = .ok pl := by
  obtain ⟨pl, hm, hid⟩ := h
  unfold playlistGet
  cases hf : db.playlists.find? (fun q => q.id == pid) with
  | some q => exact ⟨q, rfl⟩
  | none =>
    rw [List.find?_eq_none] at hf
    exact absurd (beq_iff_eq.mpr hid) (hf pl hm)

lemma find?_some_pred {α : Type} {p : α → Bool} {l : List α} {a : α}
    (h : l.find? p = some a) : p a = true ∧ a ∈ l := by
  induction l with
  | nil => simp [List.find?] at h
  | cons x xs ih =>
    by_cases hp : p x
    · rw [List.find?_cons_of_pos _ hp] at h
      have hx : x = a := by injection h
      subst hx
      exact ⟨hp, List.mem_cons_self _ _⟩
    · rw [List.find?_cons_of_neg _ hp] at h
      obtain ⟨h1, h2⟩ := ih h
      exact ⟨h1, List.mem_cons_of_mem _ h2⟩

lemma playlistGet_ok_mem {db : DB} {pid : Int} {pl : PlaylistRow}
    (h : playlistGet db pid = .ok pl) :
    pl ∈ db.playlists ∧ pl.id = pid := by
  unfold playlistGet at h
  cases hf : db.playlists.find? (fun q => q.id == pid) with
  | none => rw [hf] at h; exact absurd h (by simp)
  | some q =>
    rw [hf] at h
    have hq : q = pl := by injection h
    subst hq
    obtain ⟨h1, h2⟩ := find?_some_pred hf
    exact ⟨h2, beq_iff_eq.mp h1⟩

lemma update_ok_elim {db : DB} {v : PlaylistData} {db' : DB} {p : Int}
    (h : update db v = .ok (db', p)) :
    p = v.id ∧ ∃ o pl ds,
      v.owner = some o ∧ o.id ∈ db.users ∧
      playlistGet (playlistFilterUpdate db v.id v.name v.public) v.id =
        .ok pl ∧
      sync_tracks (set_playback_position
          (playlistFilterUpdate db v.id v.name v.public) v.id
          v.get_playback_position (v.get_active_track_idx : ℚ) o.id)
        v.id v.tracks = .ok (db', ds) := by
  unfold update at h
  cases ho : v.owner with
  | none => simp only [ho] at h; exact absurd h (by simp)
  | some o =>
    simp only [ho] at h
    cases hu : userGet db o.id with
    | error e => simp only [hu] at h; exact absurd h (by simp)
    | ok user =>
      simp only [hu] at h
      obtain ⟨huser, hmem⟩ := userGet_ok hu
      subst huser
      cases hp : playlistGet (playlistFilterUpdate db v.id v.name v.public)
          v.id with
      | error e => simp only [hp] at h; exact absurd h (by simp)
      | ok pl0 =>
        simp only [hp] at h
        cases hs : sync_tracks (set_playback_position
            (playlistFilterUpdate db v.id v.name v.public) v.id
            v.get_playback_position (v.get_active_track_idx : ℚ) o.id)
            v.id v.tracks with
        | error e => simp only [hs] at h; exact absurd h (by simp)
        | ok r =>
          obtain ⟨db3, ds⟩ := r
          simp only [hs, Except.ok.injEq, Prod.mk.injEq] at h
          obtain ⟨hdb, hp2⟩ := h
          subst hdb
          exact ⟨hp2.symm, o, pl0, ds, rfl, hmem, rfl, hs⟩


lemma update_ok_intro {db : DB} {v : PlaylistData} {o : OwnerDesc}
    {pl : PlaylistRow} {db3 : DB} {ds : List TrackData}
    (ho : v.owner = some o) (hu : o.id ∈ db.users)
    (hp : playlistGet (playlistFilterUpdate db v.id v.name v.public) v.id =
      .ok pl)
    (hs : sync_tracks (set_playback_position
        (playlistFilterUpdate db v.id v.name v.public) v.id
        v.get_playback_position (v.get_active_track_idx : ℚ) o.id)
      v.id v.tracks = .ok (db3, ds)) :
    update db v = .ok (db3, v.id) := by
  have huser : userGet db o.id = .ok o.id := by
    unfold userGet
    rw [if_pos hu]
  unfold update
  simp only [ho, huser, hp, hs]

lemma syncOne_dangling {db : DB} {pl : Int} {idx : Nat} {d : TrackData}
    {fd : FileDesc} (hf : d.file = some (some fd))
    (hnf : fd.id ∉ db.files) : ∃ e, syncOne db pl idx d = .error e := by
  unfold syncOne
  cases hyt : d.youtube with
  | none => exact ⟨_, rfl⟩
  | some ydata =>
    simp only [hyt]
    cases hry : resolveYoutube db ydata with
    | error e => simp only [hry]; exact ⟨e, rfl⟩
    | ok rv =>
      obtain ⟨r, db1⟩ := rv
      simp only [hry, hf]
      have hfiles : db1.files = db.files := (resolveYoutube_frame hry).2.1
      have hget : fileGet db1 fd.id = .error (.notFound "File") := by
        unfold fileGet
        rw [hfiles, if_neg hnf]
      have hrf : resolveFile db1 (some fd) = .error (.notFound "File") := by
        unfold resolveFile
        simp only [hget]
      simp only [hrf]
      exact ⟨_, rfl⟩

lemma syncLoop_dangling : ∀ (l : List TrackData) (db : DB) (idx : Nat)
    (pl : Int) {fd : FileDesc},
    (∃ d ∈ l, d.file = some (some fd)) → fd.id ∉ db.files →
    ∃ e, syncLoop db pl idx l = .error e := by
  intro l
  induction l with
  | nil =>
    intro db idx pl fd hmem _
    exact absurd hmem (by simp)
  | cons d ds ih =>
    intro db idx pl fd hmem hnf
    unfold syncLoop
    cases h1 : syncOne db pl idx d with
    | error e => exact ⟨e, rfl⟩
    | ok r1 =>
      obtain ⟨dbm, dm⟩ := r1
      rcases hmem with ⟨d0, hd0, hf0⟩
      rcases List.mem_cons.mp hd0 with rfl | hd0tail
      · obtain ⟨e, he⟩ := syncOne_dangling hf0 hnf
        rw [he] at h1
        exact absurd h1 (by simp)
      · obtain ⟨e, he⟩ := ih dbm (idx + 1) pl ⟨d0, hd0tail, hf0⟩ (by
          have hfl : dbm.files = db.files := (syncOne_ok_frames h1).2.1
          rw [hfl]
          exact hnf)
        refine ⟨e, ?_⟩
        simp only [he]

lemma update_dangling {db : DB} {v : PlaylistData} {fd : FileDesc}
    (hmem : ∃ d ∈ v.tracks, d.file = some (some fd))
    (hnf : fd.id ∉ db.files) : ∃ e, update db v = .error e := by
  unfold update
  cases ho : v.owner with
  | none => exact ⟨Err.typeError, by simp only [ho]⟩
  | some o =>
    cases hu : userGet db o.id with
    | error e => exact ⟨e, by simp only [ho, hu]⟩
    | ok user =>
      cases hp : playlistGet (playlistFilterUpdate db v.id v.name v.public)
          v.id with
      | error e => exact ⟨e, by simp only [ho, hu, hp]⟩
      | ok pl0 =>
        obtain ⟨e, he⟩ : ∃ e, sync_tracks (set_playback_position
            (playlistFilterUpdate db v.id v.name v.public) v.id
            v.get_playback_position (v.get_active_track_idx : ℚ) user)
            v.id v.tracks = .error e := by
          unfold sync_tracks
          exact syncLoop_dangling v.tracks _ 0 v.id hmem hnf
        exact ⟨e, by simp only [ho, hu, hp, he]⟩

lemma runUpdate_of_error {db : DB} {v : PlaylistData} {e : Err}
    (h : update db v = .error e) : runUpdate db v = db := by
  unfold runUpdate
  rw [h]

lemma runUpdate_of_ok {db : DB} {v : PlaylistData} {db' : DB} {p : Int}
    (h : update db v = .ok (db', p)) : runUpdate db v = db' := by
  unfold runUpdate
  rw [h]

/-! ### Playback position upsert lemmas -/

lemma posOf_upsert_same : ∀ (rows : List PositionRow) (pid uid : Int)
    (a p : ℚ),
    (rows.filter (fun r => r.playlist == pid && r.user == uid)).length ≤ 1 →
    (upsertPosition rows pid uid a p).filter
        (fun r => r.playlist == pid && r.user == uid) =
      [{ playlist := pid, user := uid, active_track_idx := a,
         playback_position := p }] := by
  intro rows
  induction rows with
  | nil =>
    intro pid uid a p _
    simp [upsertPosition, List.filter]
  | cons r rs ih =>
    intro pid uid a p h
    unfold upsertPosition
    cases hm : (r.user == uid && r.playlist == pid) with
    | true =>
      obtain ⟨hu, hp⟩ := (Bool.and_eq_true _ _).mp hm
      have hu' : r.user = uid := beq_iff_eq.mp hu
      have hp' : r.playlist = pid := beq_iff_eq.mp hp
      have hfr : rs.filter (fun q => q.playlist == pid && q.user == uid)
          = [] := by
        rw [List.filter_cons_of_pos (by simp [hu', hp'])] at h
        simp only [List.length_cons] at h
        exact List.length_eq_zero.mp (by omega)
      rw [if_pos rfl]
      rw [List.filter_cons_of_pos (by simp [hu', hp']), hfr]
      rw [hp', hu']
    | false =>
      have hfr : ¬((r.playlist == pid && r.user == uid) = true) := by
        intro hc
        rw [Bool.and_comm] at hc
        rw [hm] at hc
        exact absurd hc (by simp)
      rw [if_neg (by simp)]
      rw [@List.filter_cons_of_neg PositionRow
        (fun q => q.playlist == pid && q.user == uid) r
        (upsertPosition rs pid uid a p) hfr]
      apply ih
      rw [@List.filter_cons_of_neg PositionRow
        (fun q => q.playlist == pid && q.user == uid) r rs hfr] at h
      exact h

lemma posOf_upsert_other : ∀ (rows : List PositionRow)
    (pid uid pid' uid' : Int) (a p : ℚ),
    ¬(pid' = pid ∧ uid' = uid) →
    (upsertPosition rows pid uid a p).filter
        (fun r => r.playlist == pid' && r.user == uid') =
      rows.filter (fun r => r.playlist == pid' && r.user == uid') := by
  intro rows
  induction rows with
  | nil =>
    intro pid uid pid' uid' a p hne
    unfold upsertPosition
    have hpred : ¬(((⟨pid, uid, a, p⟩ : PositionRow).playlist == pid' &&
        (⟨pid, uid, a, p⟩ : PositionRow).user == uid') = true) := by
      simp only [Bool.and_eq_true, beq_iff_eq]
      intro hc
      exact hne ⟨hc.1.symm, hc.2.symm⟩
    rw [@List.filter_cons_of_neg PositionRow
      (fun r => r.playlist == pid' && r.user == uid')
      ⟨pid, uid, a, p⟩ [] hpred]
  | cons r rs ih =>
    intro pid uid pid' uid' a p hne
    unfold upsertPosition
    cases hm : (r.user == uid && r.playlist == pid) with
    | true =>
      rw [if_pos rfl]
      cases hpr : (r.playlist == pid' && r.user == uid') with
      | true =>
        exfalso
        obtain ⟨hu, hp⟩ := (Bool.and_eq_true _ _).mp hm
        obtain ⟨hp2, hu2⟩ := (Bool.and_eq_true _ _).mp hpr
        apply hne
        constructor
        · rw [← beq_iff_eq.mp hp2, beq_iff_eq.mp hp]
        · rw [← beq_iff_eq.mp hu2, beq_iff_eq.mp hu]
      | false =>
        simp only [List.filter_cons]
        simp [hpr]
    | false =>
      rw [if_neg (by simp)]
      simp only [List.filter_cons]
      cases hpr : (r.playlist == pid' && r.user == uid') with
      | true => simp [hpr, ih _ _ _ _ _ _ hne]
      | false => simp [hpr, ih _ _ _ _ _ _ hne]

lemma posUnique_set {db : DB} (h : posUnique db) (pl : Int) (a p : ℚ)
    (u : Int) : posUnique (set_playback_position db pl a p u) := by
  intro pid uid
  by_cases hk : pid = pl ∧ uid = u
  · obtain ⟨rfl, rfl⟩ := hk
    unfold positionsOf
    rw [spp_positions, posOf_upsert_same db.positions pid uid a p (h pid uid)]
    simp
  · unfold positionsOf
    rw [spp_positions, posOf_upsert_other db.positions pl u pid uid a p hk]
    exact h pid uid

lemma posUnique_applyCalls : ∀ (cs : List PosCall) (db : DB),
    posUnique db → posUnique (applyPosCalls db cs) := by
  intro cs
  induction cs with
  | nil => intro db h; exact h
  | cons c cs ih =>
    intro db h
    exact ih _ (posUnique_set h c.playlist c.active_track_idx
      c.playback_position c.user)

lemma posOf_set_twice {db : DB} (h : posUnique db) (pid uid : Int)
    (a1 p1 a2 p2 : ℚ) :
    positionsOf (set_playback_position
        (set_playback_position db pid a1 p1 uid) pid a2 p2 uid) pid uid =
      [{ playlist := pid, user := uid, active_track_idx := a2,
         playback_position := p2 }] := by
  unfold positionsOf
  rw [spp_positions, spp_positions]
  apply posOf_upsert_same
  rw [posOf_upsert_same db.positions pid uid a1 p1 (h pid uid)]
  simp

/-! ### Stability of a repeated sync against the grown youtube table -/

lemma find?_prefix_append_singleton {α : Type} {p : α → Bool} {l l2 : List α}
    {y : α} (h : l.find? p = none) (hy : p y = true)
    (hpre : (l ++ [y]) <+: l2) : l2.find? p = some y :=
  find?_prefix_some hpre (find?_append_singleton h hy)

lemma resolveFile_files_congr {dbA dbB : DB} (h : dbA.files = dbB.files)
    (fdata : Option FileDesc) : resolveFile dbA fdata = resolveFile dbB fdata := by
  cases fdata with
  | none => rfl
  | some fd =>
    unfold resolveFile fileGet
    rw [h]

lemma resolveYoutube_stable {s1 db1 s2 : DB} {ydata : Option YoutubeDesc}
    {r : Option Int} (hry : resolveYoutube s1 ydata = .ok (r, db1))
    (hpre : db1.youtubes <+: s2.youtubes) :
    resolveYoutube s2 ydata = .ok (r, s2) := by
  rcases resolveYoutube_ok_elim hry with ⟨hyd, hr, hdb⟩ |
    ⟨yd, vid, hyd, hvid, ⟨y, hfind, hr, hdb1⟩ | ⟨hfind, hr, hdb1⟩⟩
  · subst hyd
    rw [hr]
    rfl
  · subst hyd
    have hpre1 : s1.youtubes <+: s2.youtubes := by
      rw [← hdb1]; exact hpre
    have hfind2 : s2.youtubes.find? (fun z => z.video_id == vid) = some y :=
      find?_prefix_some hpre1 hfind
    have hygc : youtubeGetOrCreate s2 vid { yd with youtube_id := none } =
        (y, s2) := by
      unfold youtubeGetOrCreate
      rw [hfind2]
    unfold resolveYoutube
    simp only [hvid, hygc, hr]
  · subst hyd
    have hpre1 : (s1.youtubes ++
        [mkYoutubeRow s1 vid { yd with youtube_id := none }]) <+:
        s2.youtubes := by
      have : db1.youtubes = s1.youtubes ++
          [mkYoutubeRow s1 vid { yd with youtube_id := none }] := by
        rw [hdb1]; rfl
      rw [← this]; exact hpre
    have hfind2 : s2.youtubes.find? (fun z => z.video_id == vid) =
        some (mkYoutubeRow s1 vid { yd with youtube_id := none }) :=
      find?_prefix_append_singleton hfind (by simp [mkYoutubeRow]) hpre1
    have hygc : youtubeGetOrCreate s2 vid { yd with youtube_id := none } =
        (mkYoutubeRow s1 vid { yd with youtube_id := none }, s2) := by
      unfold youtubeGetOrCreate
      rw [hfind2]
    unfold resolveYoutube
    simp only [hvid, hygc, hr]
    rfl

lemma syncOne_stable {s1 : DB} {pl : Int} {idx : Nat} {d : TrackData}
    {s1m : DB} {dm : TrackData} {s2 : DB}
    (h1 : syncOne s1 pl idx d = .ok (s1m, dm))
    (hfiles : s2.files = s1.files)
    (hpre : s1m.youtubes <+: s2.youtubes) :
    ∃ r fref, syncOne s2 pl idx d =
      .ok ({ s2 with
        tracks := s2.tracks ++
          [{ id := s2.nextTrackId, playlist := pl, order := idx,
             type := d.type, file := fref, youtube := r }],
        nextTrackId := s2.nextTrackId + 1 }, dm) ∧
      s1m.tracks = s1.tracks ++
        [{ id := s1.nextTrackId, playlist := pl, order := idx,
           type := d.type, file := fref, youtube := r }] ∧
      s1m.youtubes <+: s2.youtubes := by
  obtain ⟨ydata, fdata, r, db1, fref, hyt, hf, hry, hrf, hs1m, hdm⟩ :=
    syncOne_ok_elim h1
  obtain ⟨_, hfl1, _, htr1, _, hnt1, _, _⟩ := resolveYoutube_frame hry
  have hytb : s1m.youtubes = db1.youtubes := by rw [hs1m]
  have hry2 : resolveYoutube s2 ydata = .ok (r, s2) := by
    apply resolveYoutube_stable hry
    rw [← hytb]
    exact hpre
  have hrf2 : resolveFile s2 fdata = .ok fref := by
    rw [resolveFile_files_congr (show s2.files = db1.files by
      rw [hfiles, ← hfl1]) fdata]
    exact hrf
  refine ⟨r, fref, ?_, ?_, hpre⟩
  · unfold syncOne
    simp only [hyt, hry2, hf, hrf2]
    rw [hdm]
    rfl
  · rw [hs1m]
    show db1.tracks ++ _ = s1.tracks ++ _
    rw [htr1, hnt1]

lemma syncLoop_proj_stable : ∀ (l : List TrackData) (s1 s2 : DB) (pl : Int)
    (idx : Nat) {d1 : DB} {l1 : List TrackData},
    syncLoop s1 pl idx l = .ok (d1, l1) →
    s2.files = s1.files →
    d1.youtubes <+: s2.youtubes →
    ∃ d2 l2 ts1 ts2,
      syncLoop s2 pl idx l = .ok (d2, l2) ∧
      d1.tracks = s1.tracks ++ ts1 ∧
      d2.tracks = s2.tracks ++ ts2 ∧
      ts1.map trackProj = ts2.map trackProj := by
  intro l
  induction l with
  | nil =>
    intro s1 s2 pl idx d1 l1 h hfiles hpre
    unfold syncLoop at h
    simp only [Except.ok.injEq, Prod.mk.injEq] at h
    obtain ⟨h1, _⟩ := h
    refine ⟨s2, [], [], [], rfl, ?_, by simp, rfl⟩
    rw [← h1]
    simp
  | cons d ds ih =>
    intro s1 s2 pl idx d1 l1 h hfiles hpre
    unfold syncLoop at h
    cases h1 : syncOne s1 pl idx d with
    | error e => simp only [h1] at h; exact absurd h (by simp)
    | ok r1 =>
      obtain ⟨s1m, dm⟩ := r1
      simp only [h1] at h
      cases h2 : syncLoop s1m pl (idx + 1) ds with
      | error e => simp only [h2] at h; exact absurd h (by simp)
      | ok r2 =>
        obtain ⟨d1', l1'⟩ := r2
        simp only [h2, Except.ok.injEq, Prod.mk.injEq] at h
        obtain ⟨hd1, _⟩ := h
        rw [hd1] at h2
        obtain ⟨ts0, _, _, _, _, _, _, _, _, _, _, _, _, _, hpre0⟩ :=
          syncLoop_ok_elim ds s1m (idx + 1) h2
        have hpre1 : s1m.youtubes <+: s2.youtubes := hpre0.trans hpre
        obtain ⟨r, fref, h1b, htr1b, _⟩ := syncOne_stable h1 hfiles hpre1
        obtain ⟨_, hfl1m, _, _, _, _, _, _, _⟩ := syncOne_ok_frames h1
        have hfiles2 : ({ s2 with
            tracks := s2.tracks ++
              [{ id := s2.nextTrackId, playlist := pl, order := idx,
                 type := d.type, file := fref, youtube := r }],
            nextTrackId := s2.nextTrackId + 1 } : DB).files = s1m.files := by
          rw [hfl1m]
          exact hfiles
        have hpre2 : d1.youtubes <+: ({ s2 with
            tracks := s2.tracks ++
              [{ id := s2.nextTrackId, playlist := pl, order := idx,
                 type := d.type, file := fref, youtube := r }],
            nextTrackId := s2.nextTrackId + 1 } : DB).youtubes := hpre
        obtain ⟨d2, l2t, ts1t, ts2t, hs2l, htr1t, htr2t, hproj⟩ :=
          ih s1m _ pl (idx + 1) h2 hfiles2 hpre2
        refine ⟨d2, dm :: l2t,
          ({ id := s1.nextTrackId, playlist := pl, order := idx,
             type := d.type, file := fref, youtube := r } : TrackRow) :: ts1t,
          ({ id := s2.nextTrackId, playlist := pl, order := idx,
             type := d.type, file := fref, youtube := r } : TrackRow) :: ts2t,
          ?_, ?_, ?_, ?_⟩
        · unfold syncLoop
          simp only [h1b, hs2l]
        · rw [htr1t, htr1b, List.append_assoc]
          rfl
        · rw [htr2t, List.append_assoc]
          rfl
        · simp only [List.map_cons, hproj]
          rfl

lemma sync_tracks_stable {db : DB} {pl : Int} {l : List TrackData}
    {d1 : DB} {l1 : List TrackData} {s2 : DB}
    (h : sync_tracks db pl l = .ok (d1, l1))
    (hfiles : s2.files = db.files)
    (hpre : d1.youtubes <+: s2.youtubes) :
    ∃ d2 l2 ts1 ts2, sync_tracks s2 pl l = .ok (d2, l2) ∧
      d1.tracks = db.tracks.filter (fun t => !(t.playlist == pl)) ++ ts1 ∧
      d2.tracks = s2.tracks.filter (fun t => !(t.playlist == pl)) ++ ts2 ∧
      ts1.map trackProj = ts2.map trackProj := by
  unfold sync_tracks at h ⊢
  exact syncLoop_proj_stable l _ _ pl 0 h hfiles hpre

lemma popAll_mem : ∀ (l : List TrackData) (idx : Nat) (d' : TrackData),
    d' ∈ popAll idx l → d'.id = none ∧ d'.playlist = none ∧
      d'.youtube = none ∧ d'.file = none := by
  intro l
  induction l with
  | nil => intro idx d' h; exact absurd h (by simp [popAll])
  | cons d ds ih =>
    intro idx d' h
    simp only [popAll] at h
    rcases List.mem_cons.mp h with rfl | h2
    · exact ⟨rfl, rfl, rfl, rfl⟩
    · exact ih (idx + 1) d' h2

/-! ### Claim theorems -/

/-- C1: Atomicity of save: if resolving a track descriptor k (0 < k < N)
fails during a save call (here: its file reference is dangling), the call
returns an error and the persisted track list and playback-position rows of
every playlist are exactly their pre-call values: the transaction rolls back
and nothing is committed. -/
theorem update_failure_is_atomic (db : DB) (v : PlaylistData) (k : Nat)
    (fd : FileDesc) (hk0 : 0 < k) (hkN : k < v.tracks.length)
    (hfile : (v.tracks.get ⟨k, hkN⟩).file = some (some fd))
    (hdangle : fd.id ∉ db.files) :
    (∃ e, update db v = .error e) ∧
    (∀ pid, tracksOf (runUpdate db v) pid = tracksOf db pid) ∧
    (∀ pid uid, positionsOf (runUpdate db v) pid uid =
      positionsOf db pid uid) := by
  have hmem : ∃ d ∈ v.tracks, d.file = some (some fd) :=
    ⟨v.tracks.get ⟨k, hkN⟩, List.get_mem _ _ _, hfile⟩
  obtain ⟨e, he⟩ := update_dangling hmem hdangle
  have hr : runUpdate db v = db := runUpdate_of_error he
  exact ⟨⟨e, he⟩, fun pid => by rw [hr], fun pid uid => by rw [hr]⟩

theorem update_failure_is_atomic_witness :
    (∃ e, update dbW (vW [dFileW, dDangleW]) = .error e) ∧
    (∀ pid, tracksOf (runUpdate dbW (vW [dFileW, dDangleW])) pid =
      tracksOf dbW pid) ∧
    (∀ pid uid, positionsOf (runUpdate dbW (vW [dFileW, dDangleW])) pid uid =
      positionsOf dbW pid uid) :=
  update_failure_is_atomic dbW (vW [dFileW, dDangleW]) 1 ⟨999⟩
    (by decide) (by decide) (by decide) (by decide)

/-- C3: the `update` path persists the playback fields swapped
(serializers.py:261 passes `playback_position, active_track_idx` into
`set_playback_position(playlist, active_track_idx, playback_position, user)`).
Submitting active_track_idx = 1 and playback_position = 42.5 against an
existing playlist persists a row with active_track_idx = 42.5 and
playback_position = 1 — not the canonical (non-swapped) contract the claim
states, which `create` (serializers.py:275) does follow. -/
theorem update_swaps_playback_arguments :
    positionsOf (runUpdate dbW (vW [])) 1 7 =
      [{ playlist := 1, user := 7, active_track_idx := mkRat 85 2,
         playback_position := 1 }] ∧
    (vW []).get_active_track_idx = 1 ∧
    (vW []).get_playback_position = mkRat 85 2 := by decide

/-- C7: playback-position upsert invariant: any sequence of
`set_playback_position` calls preserves "at most one row per
(playlist, user)", and two consecutive calls for the same pair leave exactly
one row holding the second call's values. -/
theorem playback_position_upsert :
    (∀ (db : DB) (cs : List PosCall), posUnique db →
      posUnique (applyPosCalls db cs)) ∧
    (∀ (db : DB) (pid uid : Int) (a1 p1 a2 p2 : ℚ), posUnique db →
      positionsOf (set_playback_position
        (set_playback_position db pid a1 p1 uid) pid a2 p2 uid) pid uid =
      [{ playlist := pid, user := uid, active_track_idx := a2,
         playback_position := p2 }]) :=
  ⟨fun _ cs h => posUnique_applyCalls cs _ h,
   fun db pid uid a1 p1 a2 p2 h => posOf_set_twice h pid uid a1 p1 a2 p2⟩

theorem playback_position_upsert_witness :
    posUnique (applyPosCalls dbW [⟨1, 0, 1, 7⟩]) ∧
    positionsOf (set_playback_position
      (set_playback_position dbW 1 0 1 7) 1 2 3 7) 1 7 =
    [{ playlist := 1, user := 7, active_track_idx := 2,
       playback_position := 3 }] := by
  have hq : posUnique dbW := by
    intro pid uid
    simp [posUnique, positionsOf, dbW]
  exact ⟨playback_position_upsert.1 dbW [⟨1, 0, 1, 7⟩] hq,
    playback_position_upsert.2 dbW 1 7 0 1 2 3 hq⟩

/-- C9: owner frame condition on update: a successful `update` rewrites the
playlists table by changing only `name` and `public` of the row with the
descriptor's id; in particular every playlist's `owner` reference is
unchanged, whatever owner identity the descriptor carries. -/
theorem update_owner_frame (db : DB) (v : PlaylistData) (db' : DB) (p : Int)
    (h : update db v = .ok (db', p)) :
    db'.playlists = db.playlists.map (fun pl =>
      if pl.id == v.id then { pl with name := v.name, public := v.public }
      else pl) ∧
    db'.playlists.map (fun pl => pl.owner) =
      db.playlists.map (fun pl => pl.owner) := by
  obtain ⟨hp, o, plA, ds, ho, hu, hpg, hs⟩ := update_ok_elim h
  obtain ⟨ts, htr, htrOf, hpop, hlen, hplm, hord, hty, hid, hle, huE, hfE,
    hpE, hqE, hnE, hpreE⟩ := sync_tracks_ok_elim hs
  have h1 : db'.playlists = db.playlists.map (fun pl =>
      if pl.id == v.id then { pl with name := v.name, public := v.public }
      else pl) := by
    rw [hpE, spp_playlists, pfu_playlists]
  refine ⟨h1, ?_⟩
  rw [h1, List.map_map]
  apply List.map_congr_left
  intro q _
  show ((if q.id == v.id then { q with name := v.name, public := v.public }
    else q) : PlaylistRow).owner = q.owner
  split <;> rfl

theorem update_owner_frame_witness :
    (runUpdate dbW (vW [])).playlists = dbW.playlists.map (fun pl =>
      if pl.id == (vW []).id then
        { pl with name := (vW []).name, public := (vW []).public }
      else pl) ∧
    (runUpdate dbW (vW [])).playlists.map (fun pl => pl.owner) =
      dbW.playlists.map (fun pl => pl.owner) :=
  update_owner_frame dbW (vW []) (runUpdate dbW (vW [])) 1 rfl

/-- C2: order preservation: after a successful save, the persisted tracks of
the playlist carry order values exactly 0..N-1 in the same sequence as the
submitted descriptor list (witnessed here by the type column following the
input sequence), whatever `order` values the input descriptors carried. -/
theorem update_preserves_input_order (db : DB) (v : PlaylistData) (db' : DB)
    (pid : Int) (h : update db v = .ok (db', pid)) :
    (tracksOf db' pid).map (fun t => t.order) =
      List.range v.tracks.length ∧
    (tracksOf db' pid).map (fun t => t.type) =
      v.tracks.map (fun d => d.type) := by
  obtain ⟨hp, o, plA, ds, ho, hu, hpg, hs⟩ := update_ok_elim h
  subst hp
  obtain ⟨ts, htr, htrOf, hpop, hlen, hplm, hord, hty, hid, hle, huE, hfE,
    hpE, hqE, hnE, hpreE⟩ := sync_tracks_ok_elim hs
  rw [htrOf]
  exact ⟨hord, hty⟩

theorem update_preserves_input_order_witness :
    (tracksOf (runUpdate dbW (vW [dFileW, dYtW "T1"])) 1).map
      (fun t => t.order) = List.range (vW [dFileW, dYtW "T1"]).tracks.length ∧
    (tracksOf (runUpdate dbW (vW [dFileW, dYtW "T1"])) 1).map
      (fun t => t.type) =
      (vW [dFileW, dYtW "T1"]).tracks.map (fun d => d.type) :=
  update_preserves_input_order dbW (vW [dFileW, dYtW "T1"])
    (runUpdate dbW (vW [dFileW, dYtW "T1"])) 1 rfl

/-- C10: `sync_tracks` destructively mutates its input descriptors: after a
successful call every returned descriptor has had its `id`, `playlist`,
`youtube` and `file` keys popped out and its `order` overwritten with the
enumerate index; consequently invoking `sync_tracks` again on the mutated
descriptors (nonempty input) fails with `KeyError('youtube')` from the
unconditional `pop('youtube')`, against any database state. -/
theorem sync_tracks_mutates_descriptors (db : DB) (pl : Int)
    (l : List TrackData) (db' : DB) (l' : List TrackData)
    (h : sync_tracks db pl l = .ok (db', l')) :
    (∀ d' ∈ l', d'.id = none ∧ d'.playlist = none ∧ d'.youtube = none ∧
      d'.file = none) ∧
    (∀ i (hi : i < l'.length) (hi2 : i < l.length),
      (l'.get ⟨i, hi⟩).order = some (i : Int)) ∧
    (l ≠ [] → ∀ (db2 : DB) (pl2 : Int),
      sync_tracks db2 pl2 l' = .error (Err.keyError "youtube")) := by
  obtain ⟨ts, htr, htrOf, hpop, hlen, hplm, hord, hty, hid, hle, huE, hfE,
    hpE, hqE, hnE, hpreE⟩ := sync_tracks_ok_elim h
  subst hpop
  refine ⟨fun d' hd' => popAll_mem l 0 d' hd', ?_, ?_⟩
  · intro i hi hi2
    rw [popAll_get l 0 i hi2 hi]
    show some ((0 + i : Nat) : Int) = some (i : Int)
    congr 1
    omega
  · intro hne db2 pl2
    cases l with
    | nil => exact absurd rfl hne
    | cons d ds =>
      have hhe : ∀ dbx : DB, syncOne dbx pl2 0 (popTrackData 0 d) =
          .error (.keyError "youtube") := by
        intro dbx
        unfold syncOne
        rfl
      unfold sync_tracks
      show syncLoop _ pl2 0 (popTrackData 0 d :: popAll 1 ds) = _
      unfold syncLoop
      simp only [hhe _]

theorem sync_tracks_mutates_descriptors_witness :
    (∀ d' ∈ (popAll 0 [dFileW]), d'.id = none ∧ d'.playlist = none ∧
      d'.youtube = none ∧ d'.file = none) ∧
    (∀ i (hi : i < (popAll 0 [dFileW]).length) (hi2 : i < [dFileW].length),
      ((popAll 0 [dFileW]).get ⟨i, hi⟩).order = some (i : Int)) ∧
    ([dFileW] ≠ [] → ∀ (db2 : DB) (pl2 : Int),
      sync_tracks db2 pl2 (popAll 0 [dFileW]) =
        .error (Err.keyError "youtube")) :=
  sync_tracks_mutates_descriptors dbW 1 [dFileW]
    { dbW with tracks := [⟨0, 1, 0, "file", some 3, none⟩], nextTrackId := 1 }
    (popAll 0 [dFileW]) rfl

/-- C6: a track descriptor referencing a File identity that does not exist
makes resolution fail with `NotFoundError` (`File.DoesNotExist`), the files
table is never written (no auto-create, on any call outcome), and a save
whose descriptor list contains such a reference never succeeds. -/
theorem missing_file_raises_notfound :
    (∀ (db : DB) (pl : Int) (idx : Nat) (d : TrackData) (fd : FileDesc),
      (d.youtube = some none ∨ ∃ yd vid, d.youtube = some (some yd) ∧
        yd.youtube_id = some vid) →
      d.file = some (some fd) → fd.id ∉ db.files →
      syncOne db pl idx d = .error (Err.notFound "File")) ∧
    (∀ (db : DB) (v : PlaylistData), (runUpdate db v).files = db.files) ∧
    (∀ (db : DB) (v : PlaylistData) (fd : FileDesc),
      (∃ d ∈ v.tracks, d.file = some (some fd)) → fd.id ∉ db.files →
      ∃ e, update db v = .error e) := by
  refine ⟨?_, ?_, ?_⟩
  · intro db pl idx d fd hyt hf hnf
    obtain ⟨ydata, r, db1, hytd, hry⟩ :
        ∃ ydata r db1, d.youtube = some ydata ∧
          resolveYoutube db ydata = .ok (r, db1) := by
      rcases hyt with h1 | ⟨yd, vid, h1, h2⟩
      · exact ⟨none, none, db, h1, rfl⟩
      · refine ⟨some yd,
          some (youtubeGetOrCreate db vid
            { yd with youtube_id := none }).1.id,
          (youtubeGetOrCreate db vid { yd with youtube_id := none }).2,
          h1, ?_⟩
        unfold resolveYoutube
        simp only [h2]
    have hfiles : db1.files = db.files := (resolveYoutube_frame hry).2.1
    have hget : fileGet db1 fd.id = .error (.notFound "File") := by
      unfold fileGet
      rw [hfiles, if_neg hnf]
    have hrf : resolveFile db1 (some fd) = .error (.notFound "File") := by
      unfold resolveFile
      simp only [hget]
    unfold syncOne
    simp only [hytd, hry, hf, hrf]
  · intro db v
    cases hu : update db v with
    | error e => rw [runUpdate_of_error hu]
    | ok r =>
      obtain ⟨db', p⟩ := r
      rw [runUpdate_of_ok hu]
      obtain ⟨hp, o, plA, ds, ho, hum, hpg, hs⟩ := update_ok_elim hu
      obtain ⟨ts, _, _, _, _, _, _, _, _, _, _, hfE, _, _, _, _⟩ :=
        sync_tracks_ok_elim hs
      rw [hfE, spp_files, pfu_files]
  · intro db v fd hmem hnf
    exact update_dangling hmem hnf

theorem missing_file_raises_notfound_witness :
    syncOne dbW 1 0 dDangleW = .error (Err.notFound "File") ∧
    (runUpdate dbW (vW [dDangleW])).files = dbW.files ∧
    (∃ e, update dbW (vW [dDangleW]) = .error e) :=
  ⟨missing_file_raises_notfound.1 dbW 1 0 dDangleW ⟨999⟩ (Or.inl rfl) rfl
      (by decide),
   missing_file_raises_notfound.2.1 dbW (vW [dDangleW]),
   missing_file_raises_notfound.2.2 dbW (vW [dDangleW]) ⟨999⟩
      ⟨dDangleW, by decide, rfl⟩ (by decide)⟩

/-- C5 counterexample: the claim says a descriptor carrying neither a File
reference nor an external-source descriptor fails with MalformedTrackError;
the code instead accepts it. With both `youtube` and `file` null, `update`
succeeds and persists a track with no backing source at all. -/
theorem malformed_descriptor_accepted :
    (update dbW (vW [dNeitherW])).isOk = true ∧
    tracksOf (runUpdate dbW (vW [dNeitherW])) 1 =
      [{ id := 0, playlist := 1, order := 0, type := "file", file := none,
         youtube := none }] := by decide

/-- C5 amended: `sync_tracks` performs no malformed-descriptor validation
(no MalformedTrackError exists in the code): a descriptor whose `youtube` and
`file` values are both null resolves to a track with no backing source, and
one carrying both references resolves to a track referencing both; neither
shape makes resolution fail. -/
theorem no_malformed_descriptor_validation (db : DB) (pl : Int) (idx : Nat)
    (d : TrackData) :
    (d.youtube = some none → d.file = some none →
      syncOne db pl idx d = .ok ({ db with
        tracks := db.tracks ++
          [{ id := db.nextTrackId, playlist := pl, order := idx,
             type := d.type, file := none, youtube := none }],
        nextTrackId := db.nextTrackId + 1 }, popTrackData idx d)) ∧
    (∀ yd vid fd, d.youtube = some (some yd) → yd.youtube_id = some vid →
      d.file = some (some fd) → fd.id ∈ db.files →
      ∃ db' d' t, syncOne db pl idx d = .ok (db', d') ∧
        db'.tracks = db.tracks ++ [t] ∧ t.file = some fd.id ∧
        t.youtube ≠ none) := by
  constructor
  · intro hyt hf
    have h1 : resolveYoutube db none = .ok (none, db) := rfl
    have h2 : resolveFile db none = .ok none := rfl
    unfold syncOne
    simp only [hyt, h1, hf, h2]
    rfl
  · intro yd vid fd hyt hvid hf hmem
    have hry : resolveYoutube db (some yd) = .ok
        (some (youtubeGetOrCreate db vid { yd with youtube_id := none }).1.id,
         (youtubeGetOrCreate db vid { yd with youtube_id := none }).2) := by
      unfold resolveYoutube
      simp only [hvid]
    have hfiles : (youtubeGetOrCreate db vid
        { yd with youtube_id := none }).2.files = db.files := by
      rcases youtubeGetOrCreate_spec db vid { yd with youtube_id := none }
        with ⟨y, _, heq⟩ | ⟨_, heq⟩ <;> simp [heq, ytCreated]
    have htracks : (youtubeGetOrCreate db vid
        { yd with youtube_id := none }).2.tracks = db.tracks := by
      rcases youtubeGetOrCreate_spec db vid { yd with youtube_id := none }
        with ⟨y, _, heq⟩ | ⟨_, heq⟩ <;> simp [heq, ytCreated]
    have hget : fileGet (youtubeGetOrCreate db vid
        { yd with youtube_id := none }).2 fd.id = .ok fd.id := by
      unfold fileGet
      rw [hfiles, if_pos hmem]
    have hrf : resolveFile (youtubeGetOrCreate db vid
        { yd with youtube_id := none }).2 (some fd) = .ok (some fd.id) := by
      unfold resolveFile
      simp only [hget]
    obtain ⟨db', d', hok⟩ : ∃ db' d', syncOne db pl idx d = .ok (db', d') := by
      unfold syncOne
      simp only [hyt, hry, hf, hrf]
      exact ⟨_, _, rfl⟩
    obtain ⟨ydata, fdata, r, db1, fref, hyt2, hf2, hry2, hrf2, hdb, hd⟩ :=
      syncOne_ok_elim hok
    rw [hyt] at hyt2
    have hyd : ydata = some yd := by
      injection hyt2 with h
      exact h.symm
    subst hyd
    rw [hf] at hf2
    have hfd : fdata = some fd := by
      injection hf2 with h
      exact h.symm
    subst hfd
    rw [hry] at hry2
    simp only [Except.ok.injEq, Prod.mk.injEq] at hry2
    obtain ⟨hr, hdb1⟩ := hry2
    rw [← hdb1] at hrf2
    rw [hrf] at hrf2
    simp only [Except.ok.injEq] at hrf2
    refine ⟨db', d', ⟨db1.nextTrackId, pl, idx, d.type, fref, r⟩, hok,
      ?_, ?_, ?_⟩
    · rw [hdb]
      show db1.tracks ++ _ = db.tracks ++ _
      rw [← hdb1, htracks]
    · show fref = some fd.id
      rw [← hrf2]
    · show r ≠ none
      rw [← hr]
      simp

theorem no_malformed_descriptor_validation_witness :
    syncOne dbW 1 0 dNeitherW = .ok ({ dbW with
      tracks := dbW.tracks ++
        [{ id := dbW.nextTrackId, playlist := 1, order := 0,
           type := dNeitherW.type, file := none, youtube := none }],
      nextTrackId := dbW.nextTrackId + 1 }, popTrackData 0 dNeitherW) ∧
    (∃ db' d' t, syncOne dbW 1 0 dBothW = .ok (db', d') ∧
      db'.tracks = dbW.tracks ++ [t] ∧ t.file = some (3 : Int) ∧
      t.youtube ≠ none) :=
  ⟨(no_malformed_descriptor_validation dbW 1 0 dNeitherW).1 rfl rfl,
   (no_malformed_descriptor_validation dbW 1 0 dBothW).2
     ⟨some "xyz", "T", 1, 2⟩ "xyz" ⟨3⟩ rfl rfl rfl (by decide)⟩

/-- C4: external-entry dedup, first-write-wins: starting from a database with
no Youtube entry for identifier `vid`, after two successful saves at most one
entry for `vid` is persisted; any entry present after the first call survives
the second call byte-identically (later descriptors never overwrite it), and
if the first call's descriptor list carries `vid`, the single persisted entry
takes its display attributes from the first such descriptor. -/
theorem youtube_dedup_first_write_wins (db : DB) (v1 v2 : PlaylistData)
    (db1 db2 : DB) (p1 p2 : Int) (vid : String)
    (h0 : ytOf db vid = [])
    (h1 : update db v1 = .ok (db1, p1))
    (h2 : update db1 v2 = .ok (db2, p2)) :
    (ytOf db2 vid).length ≤ 1 ∧
    (∀ y, ytOf db1 vid = [y] → ytOf db2 vid = [y]) ∧
    (∀ yd, firstYoutubeDesc v1.tracks vid = some yd →
      ∃ y, ytOf db1 vid = [y] ∧ y.title = yd.title ∧ y.views = yd.views ∧
        y.duration = yd.duration ∧ ytOf db2 vid = [y]) := by
  obtain ⟨hpA, o1, plA, ds1, ho1, hu1, hpg1, hs1⟩ := update_ok_elim h1
  obtain ⟨hpB, o2, plB, ds2, ho2, hu2, hpg2, hs2⟩ := update_ok_elim h2
  have hfirst1 := sync_tracks_ytOf_first hs1 vid h0
  refine ⟨?_, ?_, ?_⟩
  · by_cases hnil1 : ytOf db1 vid = []
    · have hf2 := sync_tracks_ytOf_first hs2 vid hnil1
      cases hset : firstYoutubeDesc v2.tracks vid with
      | none => rw [hf2.1 hset]; simp
      | some yd =>
        obtain ⟨y, hy, _⟩ := hf2.2 yd hset
        rw [hy]
        simp
    · cases hset : firstYoutubeDesc v1.tracks vid with
      | none => exact absurd (hfirst1.1 hset) hnil1
      | some yd =>
        obtain ⟨y, hy, _, _, _, _⟩ := hfirst1.2 yd hset
        have hkeep := sync_tracks_ytOf_keep hs2 vid
          (show ytOf db1 vid ≠ [] by rw [hy]; simp)
        rw [hkeep]
        show (ytOf db1 vid).length ≤ 1
        rw [hy]
        simp
  · intro y hy
    have hkeep := sync_tracks_ytOf_keep hs2 vid
      (show ytOf db1 vid ≠ [] by rw [hy]; simp)
    rw [hkeep]
    exact hy
  · intro yd hyd
    obtain ⟨y, hy, _hvid, ht, hv, hd⟩ := hfirst1.2 yd hyd
    have hkeep := sync_tracks_ytOf_keep hs2 vid
      (show ytOf db1 vid ≠ [] by rw [hy]; simp)
    refine ⟨y, hy, ht, hv, hd, ?_⟩
    rw [hkeep]
    exact hy

theorem youtube_dedup_first_write_wins_witness :
    (ytOf (runUpdate (runUpdate dbW (vW [dYtW "T1"])) (vW [dYtW "T2"]))
      "abc").length ≤ 1 ∧
    (∀ y, ytOf (runUpdate dbW (vW [dYtW "T1"])) "abc" = [y] →
      ytOf (runUpdate (runUpdate dbW (vW [dYtW "T1"])) (vW [dYtW "T2"]))
        "abc" = [y]) ∧
    (∀ yd, firstYoutubeDesc (vW [dYtW "T1"]).tracks "abc" = some yd →
      ∃ y, ytOf (runUpdate dbW (vW [dYtW "T1"])) "abc" = [y] ∧
        y.title = yd.title ∧ y.views = yd.views ∧ y.duration = yd.duration ∧
        ytOf (runUpdate (runUpdate dbW (vW [dYtW "T1"])) (vW [dYtW "T2"]))
          "abc" = [y]) :=
  youtube_dedup_first_write_wins dbW (vW [dYtW "T1"]) (vW [dYtW "T2"])
    (runUpdate dbW (vW [dYtW "T1"]))
    (runUpdate (runUpdate dbW (vW [dYtW "T1"])) (vW [dYtW "T2"])) 1 1 "abc"
    (by decide) rfl rfl

/-- C8: idempotent re-save: if a save against an existing playlist succeeds,
saving the identical descriptor value again succeeds, returns the same
playlist id, and leaves the same observable track state (order, type and
backing references, with row identities erased), even though every underlying
track row identity differs between the two calls. -/
theorem idempotent_resave (db : DB) (v : PlaylistData) (db1 : DB) (p : Int)
    (h1 : update db v = .ok (db1, p)) :
    ∃ db2, update db1 v = .ok (db2, p) ∧
      (tracksOf db2 p).map trackProj = (tracksOf db1 p).map trackProj ∧
      (∀ t1 ∈ tracksOf db1 p, ∀ t2 ∈ tracksOf db2 p, t1.id ≠ t2.id) := by
  obtain ⟨hp, o, plA, ds1, ho, hu, hpg1, hs1⟩ := update_ok_elim h1
  subst hp
  obtain ⟨ts1e, htrE, htrOf1, hpopE, hlenE, hplE, hordE, htyE, hidE, hleE,
    huE, hfE, hpE, hqE, hnE, hpreE⟩ := sync_tracks_ok_elim hs1
  have husers : db1.users = db.users := by rw [huE, spp_users, pfu_users]
  have hfiles : db1.files = db.files := by rw [hfE, spp_files, pfu_files]
  have hu2 : o.id ∈ db1.users := by rw [husers]; exact hu
  obtain ⟨hmemA, hidA⟩ := playlistGet_ok_mem hpg1
  have hfid : ∀ q : PlaylistRow,
      ((if q.id == v.id then { q with name := v.name, public := v.public }
        else q) : PlaylistRow).id = q.id := by
    intro q
    split <;> rfl
  have hmem1 : plA ∈ db1.playlists := by
    rw [hpE, spp_playlists]
    rw [pfu_playlists] at hmemA
    exact hmemA
  obtain ⟨pl2, hpg2⟩ : ∃ pl2, playlistGet
      (playlistFilterUpdate db1 v.id v.name v.public) v.id = .ok pl2 := by
    apply playlistGet_ok_of_mem
    refine ⟨(if plA.id == v.id then
      { plA with name := v.name, public := v.public } else plA), ?_, ?_⟩
    · rw [pfu_playlists]
      exact List.mem_map_of_mem _ hmem1
    · rw [hfid plA]
      exact hidA
  have hfiles2 : (set_playback_position
      (playlistFilterUpdate db1 v.id v.name v.public) v.id
      v.get_playback_position (v.get_active_track_idx : ℚ) o.id).files =
      (set_playback_position (playlistFilterUpdate db v.id v.name v.public)
        v.id v.get_playback_position (v.get_active_track_idx : ℚ)
        o.id).files := by
    rw [spp_files, pfu_files, spp_files, pfu_files]
    exact hfiles
  have hpre2 : db1.youtubes <+: (set_playback_position
      (playlistFilterUpdate db1 v.id v.name v.public) v.id
      v.get_playback_position (v.get_active_track_idx : ℚ)
      o.id).youtubes := by
    rw [spp_youtubes, pfu_youtubes]
  obtain ⟨d2, l2, tsA, tsB, hsync2, htrA, htrB, hproj⟩ :=
    sync_tracks_stable hs1 hfiles2 hpre2
  have hupd2 : update db1 v = .ok (d2, v.id) :=
    update_ok_intro ho hu2 hpg2 hsync2
  obtain ⟨ts2e, htrE2, htrOf2, hpopE2, hlenE2, hplE2, hordE2, htyE2, hidE2,
    hleE2, huE2, hfE2, hpE2, hqE2, hnE2, hpreE2⟩ := sync_tracks_ok_elim hsync2
  have hts1 : ts1e = tsA := List.append_cancel_left (htrE.symm.trans htrA)
  have hts2 : ts2e = tsB := List.append_cancel_left (htrE2.symm.trans htrB)
  refine ⟨d2, hupd2, ?_, ?_⟩
  · rw [htrOf2, htrOf1, hts2, hts1]
    exact hproj.symm
  · intro t1 ht1 t2 ht2
    rw [htrOf1] at ht1
    rw [htrOf2] at ht2
    have hlt : t1.id < db1.nextTrackId := (hidE t1 ht1).2
    have hge : db1.nextTrackId ≤ t2.id := (hidE2 t2 ht2).1
    omega

theorem idempotent_resave_witness :
    ∃ db2, update (runUpdate dbW (vW [dFileW, dYtW "T1"]))
        (vW [dFileW, dYtW "T1"]) = .ok (db2, 1) ∧
      (tracksOf db2 1).map trackProj =
        (tracksOf (runUpdate dbW (vW [dFileW, dYtW "T1"])) 1).map
          trackProj ∧
      (∀ t1 ∈ tracksOf (runUpdate dbW (vW [dFileW, dYtW "T1"])) 1,
        ∀ t2 ∈ tracksOf db2 1, t1.id ≠ t2.id) :=
  idempotent_resave dbW (vW [dFileW, dYtW "T1"])
    (runUpdate dbW (vW [dFileW, dYtW "T1"])) 1 rfl
